import Mathlib

/-!
TcpClientV1: a shallow embedding of `tcp_client.c` and `main.c`.

The C program parses its command line, opens one TCP connection, sends the
request `"<action> <length> <message>"`, reads the reply into a fixed buffer,
prints it and closes the socket.

Modelling conventions.

* A C string is the list of its characters before the terminating NUL
  (`CString`); `strlen` is the length of that list.
* The `int` counters of the program are natural numbers or integers without
  wrap-around. With system calls that return no more than the length they
  were asked for, `total_bytes_received` stays below `2 * buf_size` and
  `total_bytes_sent` never exceeds the length of the request, so this is
  exact as long as these bounds do not exceed `INT_MAX`. Beyond that the
  receive loop is described by `recvLoop32`, which stores the counter in 32
  bits.
* The C library and the kernel are the environment. `getopt_long`, `getaddrinfo`,
  `socket`, `connect`, `send` and `recv` are scripts of return values, given as
  inputs; every theorem quantifies over them.
* `exit(status)` is the outcome `Outcome.exited status`; a system call whose
  script has run out never returns (`Outcome.blocked`).
* Memory reachable from the pointer `buf` is a function from offsets to
  characters; writes are also logged offset by offset, so writes past the
  declared buffer size are visible.
* Strings are values: `sprintf` into the storage of `argv[argc - 1]` is
  modelled by the text it produces, not by the bytes it overwrites, so the
  `host` and `port` of a parsed configuration are the strings as stored by the
  option loop. The logging calls (`log_debug`, `log_info`, `log_error`,
  `perror`) have no effect on the results and are left out.
-/

namespace TcpClient

/-! ## C library pieces -/

/-- A C string: its characters up to, not including, the terminating NUL. -/
abbrev CString := List Char

/-- Value of `EXIT_SUCCESS` from `stdlib.h`. -/
def EXIT_SUCCESS : Int := 0

/-- Value of `EXIT_FAILURE` from `stdlib.h`. -/
def EXIT_FAILURE : Int := 1

/-- The NUL character that terminates a C string. -/
def NUL : Char := Char.ofNat 0

/-- The space character. -/
def SPACE : Char := Char.ofNat 32

/-- How a C function call ends: it returns a value, the process leaves through
`exit(status)`, or a system call inside it never returns. -/
inductive Outcome (α : Type) where
  | returned (a : α)
  | exited (status : Int)
  | blocked
  deriving DecidableEq

/-- Length of a C string, as `strlen` computes it. -/
def strlen (s : CString) : Nat := s.length

/-- Sign of the `strcmp` comparison of two C strings: `0` exactly for equal
strings, negative when the first is smaller, positive when it is larger. -/
def strcmp : CString → CString → Int
  | [], [] => 0
  | [], _ :: _ => -1
  | _ :: _, [] => 1
  | a :: as, b :: bs =>
    if a.toNat < b.toNat then -1
    else if b.toNat < a.toNat then 1
    else strcmp as bs

/-- The test `isdigit(c)` of `ctype.h` in the C locale: `c` is one of `0`..`9`. -/
def isdigit (c : Char) : Bool := decide (48 ≤ c.toNat ∧ c.toNat ≤ 57)

/-- The character of a single decimal digit `d < 10`. -/
def digitChar (d : Nat) : Char := Char.ofNat (48 + d)

/-- Decimal digits of `n`, most significant first, pushed in front of `acc`;
`fuel` bounds the number of digits produced. -/
def toDecimalAux : Nat → Nat → List Char → List Char
  | 0, _, acc => acc
  | fuel + 1, n, acc =>
    if n / 10 = 0 then digitChar (n % 10) :: acc
    else toDecimalAux fuel (n / 10) (digitChar (n % 10) :: acc)

/-- Decimal text of a natural number, without leading zeros (`0` is `"0"`). -/
def toDecimal (n : Nat) : List Char := toDecimalAux (n + 1) n []

/-- An argument handed to `sprintf` after the format. -/
inductive FmtArg where
  | str (s : CString)
  | long (n : Int)
  deriving DecidableEq

/-- Text that `%ld` prints for a `long`. -/
def formatLong (n : Int) : List Char :=
  if n < 0 then '-' :: toDecimal n.natAbs else toDecimal n.natAbs

/-- The text `sprintf` produces for a format that uses the conversions `%s`
and `%ld`; every other character of the format is copied. -/
def sprintf : List Char → List FmtArg → List Char
  | [], _ => []
  | '%' :: 's' :: fmt, FmtArg.str s :: args => s ++ sprintf fmt args
  | '%' :: 'l' :: 'd' :: fmt, FmtArg.long n :: args => formatLong n ++ sprintf fmt args
  | c :: fmt, args => c :: sprintf fmt args

/-! ## `tcp_client.c`: argument parsing -/

/-- Number of positional arguments the program needs
(`REQUIRED_NUMBER_OF_ARGUMENTS_OFFSET`). -/
def REQUIRED_NUMBER_OF_ARGUMENTS_OFFSET : Nat := 2

/-- Return value of `getopt_long` once every option has been read
(`ALL_OPTIONS_PARSED`). -/
def ALL_OPTIONS_PARSED : Int := -1

/-- The table `actions` of `tcp_client_parse_arguments`. -/
def actions : List CString :=
  ["uppercase".toList, "lowercase".toList, "reverse".toList, "shuffle".toList,
    "random".toList]

/-- The `Config` record of `tcp_client.h`, as `tcp_client.c` fills and reads it. -/
structure Config where
  host : CString
  port : CString
  action : CString
  message : CString
  deriving DecidableEq

/-- The macros of `tcp_client.h` that `tcp_client.c` and `main.c` use. The
header is not among the source files, so their values are parameters. -/
structure Header where
  TCP_CLIENT_DEFAULT_HOST : CString
  TCP_CLIENT_DEFAULT_PORT : CString
  TCP_CLIENT_MAX_INPUT_SIZE : Nat
  deriving DecidableEq

/-- One return of `getopt_long`: the returned code and the `optarg` it set. -/
structure GetoptEvent where
  ret : Int
  optarg : CString
  deriving DecidableEq

/-- What `tcp_client_parse_arguments` gets from its caller and from
`getopt_long`: the argument vector as `getopt_long` leaves it, the successive
returns of `getopt_long` (after the last one it returns `ALL_OPTIONS_PARSED`),
and the final value of `optind`. -/
structure ParseInput where
  argv : List CString
  getopt : List GetoptEvent
  optind : Nat
  deriving DecidableEq

/-- Code of a character, as the `switch` on the return of `getopt_long` sees it. -/
def code (c : Char) : Int := Int.ofNat c.toNat

/-- The `while (1)` loop over `getopt_long` (lines 57-103). `host` and `port`
are the fields of `config` set so far. Returns the two fields when the loop is
left through `break`. -/
def optionLoop (host port : CString) : List GetoptEvent → Outcome (CString × CString)
  | [] => Outcome.returned (host, port)
  | e :: rest =>
    if e.ret = ALL_OPTIONS_PARSED then Outcome.returned (host, port)
    else if e.ret = 0 then Outcome.exited EXIT_SUCCESS
    else if e.ret = code 'v' then optionLoop host port rest
    else if e.ret = code 'h' then optionLoop e.optarg port rest
    else if e.ret = code 'p' then
      if e.optarg.all isdigit then optionLoop host e.optarg rest
      else Outcome.exited EXIT_FAILURE
    else if e.ret = code '?' then Outcome.exited EXIT_FAILURE
    else optionLoop host port rest

/-- The `for` loop over the table of actions (lines 122-134): `true` when some
entry compares equal to `action` (the loop is left through `break`), `false`
when the last entry is passed without a match (the branch that exits). -/
def actionLoop (action : CString) : List CString → Bool
  | [] => false
  | a :: rest => if strcmp action a = 0 then true else actionLoop action rest

/-- The request text built at line 140:
`sprintf(config->message, "%s %ld %s", config->action, strlen(argv[argc - 1]), message)`,
where `message` is the copy of `argv[argc - 1]` made at line 139. -/
def encodeRequest (action original : CString) : CString :=
  sprintf "%s %ld %s".toList
    [FmtArg.str action, FmtArg.long (Int.ofNat (strlen original)), FmtArg.str original]

/-- The function `tcp_client_parse_arguments`, with strings as values. In the
program `config->host`, `config->port` and `config->action` are pointers into
the argument strings, and line 140 writes the request over `argv[argc - 1]` and
past its end. The `action` and `message` fields below are what the program
holds when it returns (the action string lies before the message string and is
not touched); the `host` and `port` fields are the strings as they were when the
option loop stored them, which line 140 overwrites when an option value lies
behind the message in the argument area (as in `tcp_client uppercase hi -p 9090`,
where the port becomes `ase 2 hi`). -/
def tcp_client_parse_arguments (hdr : Header) (inp : ParseInput) : Outcome Config :=
  let argc : Int := Int.ofNat inp.argv.length
  match optionLoop hdr.TCP_CLIENT_DEFAULT_HOST hdr.TCP_CLIENT_DEFAULT_PORT inp.getopt with
  | Outcome.exited status => Outcome.exited status
  | Outcome.blocked => Outcome.blocked
  | Outcome.returned (host, port) =>
    if argc - Int.ofNat inp.optind < Int.ofNat REQUIRED_NUMBER_OF_ARGUMENTS_OFFSET then
      Outcome.exited EXIT_FAILURE
    else if argc - Int.ofNat inp.optind > Int.ofNat REQUIRED_NUMBER_OF_ARGUMENTS_OFFSET then
      Outcome.exited EXIT_FAILURE
    else
      let action := inp.argv.getD (inp.argv.length - REQUIRED_NUMBER_OF_ARGUMENTS_OFFSET) []
      if actionLoop action actions then
        let original := inp.argv.getD (inp.argv.length - 1) []
        Outcome.returned
          { host := host, port := port, action := action,
            message := encodeRequest action original }
      else Outcome.exited EXIT_FAILURE

/-! ## `tcp_client.c`: the socket functions -/

/-- What the kernel answers for one entry of the list `getaddrinfo` produced:
the return of `socket` for it and the return of `connect` on that socket. -/
structure Addrinfo where
  socket_ret : Int
  connect_ret : Int
  deriving DecidableEq

/-- Return of one `send` call: `-1`, or the number of bytes the transport took. -/
inductive SendResult where
  | error
  | accepted (n : Nat)
  deriving DecidableEq

/-- Return of one `recv` call: `-1`, or the bytes the kernel stored at the
pointer it was given (their number is the return value; none means the peer
closed the connection). -/
inductive RecvResult where
  | error
  | data (bytes : List Char)
  deriving DecidableEq

/-- What a run of the program does that the outside can see, in program order. -/
inductive Event where
  /-- Call `socket(...)` for entry `cand` of the address list; `ret` is its return. -/
  | sys_socket (cand : Nat) (ret : Int)
  /-- Call `connect(fd, ...)` for entry `cand`; `ret` is its return. -/
  | sys_connect (cand : Nat) (fd : Int) (ret : Int)
  /-- Call `close(fd)`. -/
  | sys_close (fd : Int)
  /-- Entry into `tcp_client_send_request(fd, config)`. -/
  | call_send_request (fd : Int)
  /-- Call `send(fd, buf, len, 0)`: `buf` is the text at the pointer passed. -/
  | sys_send (fd : Int) (buf : CString) (len : Nat) (ret : SendResult)
  /-- Entry into `tcp_client_receive_response(fd, buf, buf_size)`. -/
  | call_receive_response (fd : Int) (buf_size : Nat)
  /-- Call `recv(fd, buf + offset, len, 0)`. -/
  | sys_recv (fd : Int) (offset : Nat) (len : Nat) (ret : RecvResult)
  /-- The assignment `buf[offset] = c`. -/
  | store (offset : Nat) (c : Char)
  /-- The call `printf("%s\n", buffer)`, with the text found in the buffer. -/
  | print (text : CString)
  deriving DecidableEq

/-- A run of a C function: the events it caused and how it ended. -/
abbrev Run (α : Type) := List Event × Outcome α

/-- The `for` loop of `tcp_client_connect` (lines 182-196) from entry number
`cand` on. The result is `some sockfd` when the loop is left through `break`
and `none` when it ends with `p == NULL`. -/
def connectLoop : Nat → List Addrinfo → List Event × Option Int
  | _, [] => ([], none)
  | cand, p :: rest =>
    let sockfd := p.socket_ret
    if sockfd = -1 then
      let r := connectLoop (cand + 1) rest
      (Event.sys_socket cand sockfd :: r.1, r.2)
    else if p.connect_ret = -1 then
      let r := connectLoop (cand + 1) rest
      (Event.sys_socket cand sockfd :: Event.sys_connect cand sockfd p.connect_ret ::
        Event.sys_close sockfd :: r.1, r.2)
    else
      ([Event.sys_socket cand sockfd, Event.sys_connect cand sockfd p.connect_ret],
        some sockfd)

/-- The function `tcp_client_connect`: `getaddrinfo_ret` is the return of
`getaddrinfo` and `servinfo` the list it produced. -/
def tcp_client_connect (getaddrinfo_ret : Int) (servinfo : List Addrinfo) : Run Int :=
  if getaddrinfo_ret ≠ 0 then ([], Outcome.exited EXIT_FAILURE)
  else
    match connectLoop 0 servinfo with
    | (t, none) => (t, Outcome.returned (-1))
    | (t, some sockfd) => (t, Outcome.returned sockfd)

/-- The `while` loop of `tcp_client_send_request` (lines 224-232), from the
state `total_bytes_sent`; the list holds the returns of the `send` calls still
to come. Every call passes the pointer `config.message` itself and the length
`message_length - total_bytes_sent`. -/
def sendLoop (sockfd : Int) (message : CString) (message_length : Nat) :
    List SendResult → Nat → Run Int
  | [], total_bytes_sent =>
    if total_bytes_sent < message_length then ([], Outcome.blocked)
    else ([], Outcome.returned EXIT_SUCCESS)
  | r :: rest, total_bytes_sent =>
    if total_bytes_sent < message_length then
      let ev := Event.sys_send sockfd message (message_length - total_bytes_sent) r
      match r with
      | SendResult.error => ([ev], Outcome.exited EXIT_FAILURE)
      | SendResult.accepted bytes_sent =>
        let run := sendLoop sockfd message message_length rest (total_bytes_sent + bytes_sent)
        (ev :: run.1, run.2)
    else ([], Outcome.returned EXIT_SUCCESS)

/-- The function `tcp_client_send_request`. -/
def tcp_client_send_request (sockfd : Int) (config : Config) (sends : List SendResult) :
    Run Int :=
  let message_length := strlen config.message
  let run := sendLoop sockfd config.message message_length sends 0
  (Event.call_send_request sockfd :: run.1, run.2)

/-- The `while` loop of `tcp_client_receive_response` (lines 251-263), from the
state `total_bytes_received`; the list holds the returns of the `recv` calls
still to come. Every call passes the pointer `buf + total_bytes_received` and
the length `buf_size`. Returns `total_bytes_received` when the loop is left.
The counter is a natural number here; `recvLoop32` is the same loop with 32-bit
counters, and the two agree while twice the buffer size fits an `int`
(`recvLoop32_eq_recvLoop`). -/
def recvLoop (sockfd : Int) (buf_size : Nat) : List RecvResult → Nat → Run Nat
  | [], total_bytes_received =>
    if total_bytes_received < buf_size then ([], Outcome.blocked)
    else ([], Outcome.returned total_bytes_received)
  | r :: rest, total_bytes_received =>
    if total_bytes_received < buf_size then
      let ev := Event.sys_recv sockfd total_bytes_received buf_size r
      match r with
      | RecvResult.error => ([ev], Outcome.exited EXIT_FAILURE)
      | RecvResult.data bytes =>
        if bytes.length = 0 then ([ev], Outcome.returned total_bytes_received)
        else
          let run := recvLoop sockfd buf_size rest (total_bytes_received + bytes.length)
          (ev :: run.1, run.2)
    else ([], Outcome.returned total_bytes_received)

/-- The function `tcp_client_receive_response`. -/
def tcp_client_receive_response (sockfd : Int) (buf_size : Nat) (recvs : List RecvResult) :
    Run Int :=
  match recvLoop sockfd buf_size recvs 0 with
  | (t, Outcome.returned total_bytes_received) =>
    (Event.call_receive_response sockfd buf_size :: t ++
      [Event.store total_bytes_received NUL], Outcome.returned EXIT_SUCCESS)
  | (t, Outcome.exited status) =>
    (Event.call_receive_response sockfd buf_size :: t, Outcome.exited status)
  | (t, Outcome.blocked) =>
    (Event.call_receive_response sockfd buf_size :: t, Outcome.blocked)

/-- The function `tcp_client_close`. -/
def tcp_client_close (sockfd : Int) : Run Int :=
  ([Event.sys_close sockfd], Outcome.returned EXIT_SUCCESS)

/-! ## The receive loop with 32-bit counters -/

/-- Largest value of a C `int` where it has 32 bits (`INT_MAX` of `limits.h`). -/
def INT_MAX : Int := 2147483647

/-- The value an `int` variable holds after a sum `x` is stored in it on 32-bit
two's-complement hardware: `x` itself inside the range of `int`, and `x` moved
by a multiple of `2 ^ 32` outside of it. The C language leaves that case
undefined; this is what the program does as usually compiled. -/
def wrapInt (x : Int) : Int := (x + 2147483648) % 4294967296 - 2147483648

/-- A result carried to another type. -/
def Outcome.map {α β : Type} (f : α → β) : Outcome α → Outcome β
  | Outcome.returned a => Outcome.returned (f a)
  | Outcome.exited status => Outcome.exited status
  | Outcome.blocked => Outcome.blocked

/-- The `while` loop of `tcp_client_receive_response` (lines 251-263) once more,
with `total_bytes_received`, `bytes_received` and `buf_size` as 32-bit `int`
values: the sum of line 262 is stored through `wrapInt`. The result is the
number of `recv` calls made and how the loop ended. -/
def recvLoop32 (buf_size : Int) : List RecvResult → Int → Nat × Outcome Int
  | [], total_bytes_received =>
    if total_bytes_received < buf_size then (0, Outcome.blocked)
    else (0, Outcome.returned total_bytes_received)
  | r :: rest, total_bytes_received =>
    if total_bytes_received < buf_size then
      match r with
      | RecvResult.error => (1, Outcome.exited EXIT_FAILURE)
      | RecvResult.data bytes =>
        let bytes_received : Int := (bytes.length : Int)
        if bytes_received = 0 then (1, Outcome.returned total_bytes_received)
        else
          let run := recvLoop32 buf_size rest (wrapInt (total_bytes_received + bytes_received))
          (run.1 + 1, run.2)
    else (0, Outcome.returned total_bytes_received)

/-! ## Reading a trace -/

/-- The bytes a `send` call hands over: the first `n` bytes at the pointer. -/
def sentBytes : Event → List Char
  | Event.sys_send _ buf len (SendResult.accepted n) => (buf.take len).take n
  | _ => []

/-- Everything the transport took over all `send` calls, in order. -/
def wireBytes : List Event → List Char
  | [] => []
  | e :: t => sentBytes e ++ wireBytes t

/-- The writes `offset ↦ c` of storing `bytes` from `offset` on. -/
def blockWrites : Nat → List Char → List (Nat × Char)
  | _, [] => []
  | offset, c :: cs => (offset, c) :: blockWrites (offset + 1) cs

/-- The writes one event makes relative to the pointer `buf`. -/
def writesOf : Event → List (Nat × Char)
  | Event.sys_recv _ offset _ (RecvResult.data bytes) => blockWrites offset bytes
  | Event.store offset c => [(offset, c)]
  | _ => []

/-- All writes of a trace relative to `buf`, in program order. -/
def bufferWrites : List Event → List (Nat × Char)
  | [] => []
  | e :: t => writesOf e ++ bufferWrites t

/-- Memory after a list of writes, starting from `mem`. -/
def memAfter (mem : Nat → Char) : List (Nat × Char) → Nat → Char
  | [] => mem
  | (offset, c) :: ws => memAfter (fun j => if j = offset then c else mem j) ws

/-- The first `n` bytes of memory. -/
def readMem (mem : Nat → Char) (n : Nat) : List Char := (List.range n).map mem

/-- The C string found at `offset`, looking at no more than `fuel` bytes. -/
def cstringAt (mem : Nat → Char) : Nat → Nat → CString
  | 0, _ => []
  | fuel + 1, offset =>
    if mem offset = NUL then [] else mem offset :: cstringAt mem fuel (offset + 1)

/-- Entries of the address list for which `socket` was called, in order. -/
def attempted : List Event → List Nat
  | [] => []
  | Event.sys_socket cand _ :: t => cand :: attempted t
  | _ :: t => attempted t

/-- Number of `recv` calls of a trace. -/
def recvCalls : List Event → Nat
  | [] => 0
  | Event.sys_recv _ _ _ _ :: t => recvCalls t + 1
  | _ :: t => recvCalls t

/-- Number of `recv` calls of a trace that returned data (a positive count). -/
def recvDataCalls : List Event → Nat
  | [] => 0
  | Event.sys_recv _ _ _ (RecvResult.data (_ :: _)) :: t => recvDataCalls t + 1
  | _ :: t => recvDataCalls t

/-! ## `main.c` -/

/-- What the operating system answers during one run of the program. -/
structure Env where
  /-- Return of `getaddrinfo`. -/
  getaddrinfo_ret : Int
  /-- The address list `getaddrinfo` produced. -/
  servinfo : List Addrinfo
  /-- Returns of the successive `send` calls. -/
  sends : List SendResult
  /-- Returns of the successive `recv` calls. -/
  recvs : List RecvResult
  /-- Content of the array `buffer` and of the memory behind it when `main` starts. -/
  memory : Nat → Char

/-- Lines 15-20 of `main`: the statements after `tcp_client_connect` returned
`sockfd`. `printf` reads the text in `buffer` up to the first NUL; the
terminator stored by `tcp_client_receive_response` lies below offset
`2 * TCP_CLIENT_MAX_INPUT_SIZE`, so that many bytes are looked at. Stores past
the end of `buffer` are recorded in the trace and nothing more: what the
program does after such a store (it overwrites the stack frame of `main`) is
not described, so the steps after `tcp_client_receive_response` are those of
the program only for runs whose stores lie inside the buffer. -/
def mainAfterConnect (hdr : Header) (config : Config) (env : Env) (sockfd : Int) : Run Int :=
  match tcp_client_send_request sockfd config env.sends with
  | (t1, Outcome.exited status) => (t1, Outcome.exited status)
  | (t1, Outcome.blocked) => (t1, Outcome.blocked)
  | (t1, Outcome.returned _) =>
    match tcp_client_receive_response sockfd hdr.TCP_CLIENT_MAX_INPUT_SIZE env.recvs with
    | (t2, Outcome.exited status) => (t1 ++ t2, Outcome.exited status)
    | (t2, Outcome.blocked) => (t1 ++ t2, Outcome.blocked)
    | (t2, Outcome.returned _) =>
      let buffer := memAfter env.memory (bufferWrites t2)
      let text := cstringAt buffer (2 * hdr.TCP_CLIENT_MAX_INPUT_SIZE) 0
      let r := tcp_client_close sockfd
      (t1 ++ t2 ++ Event.print text :: r.1, r.2)

/-- The function `main`. -/
def main (hdr : Header) (inp : ParseInput) (env : Env) : Run Int :=
  match tcp_client_parse_arguments hdr inp with
  | Outcome.exited status => ([], Outcome.exited status)
  | Outcome.blocked => ([], Outcome.blocked)
  | Outcome.returned config =>
    match tcp_client_connect env.getaddrinfo_ret env.servinfo with
    | (t0, Outcome.exited status) => (t0, Outcome.exited status)
    | (t0, Outcome.blocked) => (t0, Outcome.blocked)
    | (t0, Outcome.returned sockfd) =>
      let r := mainAfterConnect hdr config env sockfd
      (t0 ++ r.1, r.2)

/-! ## Sample runs -/

/-- A header with the host `localhost` and the port `8080` of the
specification's end-to-end scenario and its receive buffer of 1024 bytes. -/
def sampleHeader : Header :=
  { TCP_CLIENT_DEFAULT_HOST := "localhost".toList, TCP_CLIENT_DEFAULT_PORT := "8080".toList,
    TCP_CLIENT_MAX_INPUT_SIZE := 1024 }

/-- The command line `tcp_client random a`: no options, so `getopt_long`
returns `ALL_OPTIONS_PARSED` at once with `optind = 1`. -/
def sampleArgs : ParseInput :=
  { argv := ["tcp_client".toList, "random".toList, "a".toList], getopt := [], optind := 1 }

/-- The configuration `tcp_client_parse_arguments` returns for `sampleArgs`. -/
def sampleConfig : Config :=
  { host := "localhost".toList, port := "8080".toList, action := "random".toList,
    message := "random 1 a".toList }

/-- Memory that holds the character `x` everywhere. -/
def sampleMemory : Nat → Char := fun _ => 'x'

/-- A run in which the only address fails to connect and `send` on the handle
`-1` fails. -/
def envConnectFails : Env :=
  { getaddrinfo_ret := 0, servinfo := [⟨3, -1⟩], sends := [SendResult.error], recvs := [],
    memory := sampleMemory }

/-- A run in which the connection is opened on handle 3 and the first `send`
fails. -/
def envSendFails : Env :=
  { getaddrinfo_ret := 0, servinfo := [⟨3, 0⟩], sends := [SendResult.error], recvs := [],
    memory := sampleMemory }

/-- A run in which the connection is opened on handle 3, the request is sent
in one call, and the first `recv` fails. -/
def envRecvFails : Env :=
  { getaddrinfo_ret := 0, servinfo := [⟨3, 0⟩], sends := [SendResult.accepted 10],
    recvs := [RecvResult.error], memory := sampleMemory }

/-- A run in which the connection is opened on handle 3, the request is sent
in one call, and the peer answers `A` and closes. -/
def envSuccess : Env :=
  { getaddrinfo_ret := 0, servinfo := [⟨3, 0⟩], sends := [SendResult.accepted 10],
    recvs := [RecvResult.data "A".toList, RecvResult.data []], memory := sampleMemory }

/-- The command line `tcp_client uppercase hi`. -/
def sampleArgsHi : ParseInput :=
  { argv := ["tcp_client".toList, "uppercase".toList, "hi".toList], getopt := [],
    optind := 1 }

/-- A run in which the first address fails to connect, the second connects on
handle 4, the 14 bytes of the request are taken by one `send`, and the peer
answers `HI` and closes. -/
def envUppercaseHi : Env :=
  { getaddrinfo_ret := 0, servinfo := [⟨3, -1⟩, ⟨4, 0⟩], sends := [SendResult.accepted 14],
    recvs := [RecvResult.data "HI".toList, RecvResult.data []], memory := sampleMemory }

/-! ## The reader of a request -/

/-- Modelled from the spec: one step of the server's splitting, the text before
the first space of `s` and the text after that space. -/
def splitAtSpace (s : List Char) : List Char × List Char :=
  (s.takeWhile (fun c => c != SPACE), (s.dropWhile (fun c => c != SPACE)).drop 1)

/-- Modelled from the spec: the server that reads the request is not part of
this repository. A request is split on its first two spaces only, into the
action, the length field and the message. -/
def splitRequest (s : List Char) : List Char × List Char × List Char :=
  let first := splitAtSpace s
  let second := splitAtSpace first.2
  (first.1, second.1, second.2)

/-! ## Facts about the C library pieces -/

theorem strcmp_self (a : CString) : strcmp a a = 0 := by
  induction a with
  | nil => rfl
  | cons c cs ih => simp [strcmp, ih]

theorem strcmp_eq_zero_iff (a b : CString) : strcmp a b = 0 ↔ a = b := by
  constructor
  · intro h
    induction a generalizing b with
    | nil =>
      cases b with
      | nil => rfl
      | cons c cs => simp [strcmp] at h
    | cons x xs ih =>
      cases b with
      | nil => simp [strcmp] at h
      | cons y ys =>
        simp only [strcmp] at h
        split at h
        · simp at h
        · split at h
          · simp at h
          · have hxy : x.toNat = y.toNat := by omega
            have hc : x = y := Char.ext (UInt32.ext (by simpa [Char.toNat] using hxy))
            rw [hc, ih ys h]
  · intro h
    rw [h]
    exact strcmp_self b

theorem actionLoop_iff (action : CString) (table : List CString) :
    actionLoop action table = true ↔ action ∈ table := by
  induction table with
  | nil => simp [actionLoop]
  | cons a rest ih =>
    simp only [actionLoop, List.mem_cons]
    by_cases h : strcmp action a = 0
    · simp [h, (strcmp_eq_zero_iff action a).mp h, strcmp_self]
    · have hne : action ≠ a := fun e => h ((strcmp_eq_zero_iff action a).mpr e)
      simp [h, hne, ih]

theorem encodeRequest_eq (action original : CString) :
    encodeRequest action original =
      action ++ SPACE :: (toDecimal (strlen original) ++ SPACE :: original) := by
  have hf : "%s %ld %s".toList = ['%', 's', SPACE, '%', 'l', 'd', SPACE, '%', 's'] := by
    decide
  unfold encodeRequest
  rw [hf]
  simp [sprintf, formatLong, SPACE]

theorem isdigit_digitChar : ∀ d, d < 10 → isdigit (digitChar d) = true := by decide

theorem toDecimalAux_digits (fuel n : Nat) (acc : List Char)
    (hacc : ∀ c ∈ acc, isdigit c = true) :
    ∀ c ∈ toDecimalAux fuel n acc, isdigit c = true := by
  induction fuel generalizing n acc with
  | zero => simpa [toDecimalAux] using hacc
  | succ k ih =>
    have hd : isdigit (digitChar (n % 10)) = true :=
      isdigit_digitChar _ (Nat.mod_lt _ (by norm_num))
    have hacc2 : ∀ c ∈ digitChar (n % 10) :: acc, isdigit c = true := by
      intro c hc
      rcases List.mem_cons.mp hc with h | h
      · rw [h]; exact hd
      · exact hacc c h
    unfold toDecimalAux
    split
    · exact hacc2
    · exact ih _ _ hacc2

theorem toDecimal_digits (n : Nat) : ∀ c ∈ toDecimal n, isdigit c = true :=
  toDecimalAux_digits _ _ [] (by simp)

theorem space_not_digit : isdigit SPACE = false := by decide

theorem toDecimal_no_space (n : Nat) : SPACE ∉ toDecimal n := by
  intro h
  have := toDecimal_digits n SPACE h
  rw [space_not_digit] at this
  exact Bool.noConfusion this

theorem actions_no_space : ∀ a ∈ actions, SPACE ∉ a := by decide

/-! ## Facts about `tcp_client_parse_arguments` -/

theorem splitAtSpace_append (a r : List Char) (ha : SPACE ∉ a) :
    splitAtSpace (a ++ SPACE :: r) = (a, r) := by
  induction a with
  | nil => simp [splitAtSpace]
  | cons c cs ih =>
    have hc : c ≠ SPACE := fun e => ha (by simp [e])
    have hcs : SPACE ∉ cs := fun m => ha (List.mem_cons_of_mem _ m)
    have := ih hcs
    simp only [splitAtSpace, Prod.mk.injEq] at this
    simp [splitAtSpace, hc, this.1, this.2]

theorem splitRequest_encodeRequest (action original : CString) (ha : SPACE ∉ action) :
    splitRequest (encodeRequest action original) =
      (action, toDecimal (strlen original), original) := by
  rw [encodeRequest_eq]
  simp only [splitRequest]
  rw [splitAtSpace_append action _ ha]
  simp only
  rw [splitAtSpace_append _ original (toDecimal_no_space _)]

theorem getD_last_two {α : Type} (front : List α) (a m d : α) :
    (front ++ [a, m]).getD ((front ++ [a, m]).length - 2) d = a ∧
    (front ++ [a, m]).getD ((front ++ [a, m]).length - 1) d = m := by
  have h2 : (front ++ [a, m]).length - 2 = front.length := by simp
  have h1 : (front ++ [a, m]).length - 1 = front.length + 1 := by simp
  rw [h2, h1]
  constructor
  · rw [List.getD_eq_getElem?_getD, List.getElem?_append_right (le_refl _)]
    simp
  · rw [List.getD_eq_getElem?_getD, List.getElem?_append_right (Nat.le_succ _)]
    simp

theorem parse_returned (hdr : Header) (inp : ParseInput) (cfg : Config)
    (h : tcp_client_parse_arguments hdr inp = Outcome.returned cfg) :
    ∃ host port,
      optionLoop hdr.TCP_CLIENT_DEFAULT_HOST hdr.TCP_CLIENT_DEFAULT_PORT inp.getopt =
        Outcome.returned (host, port) ∧
      inp.argv.length = inp.optind + 2 ∧
      inp.argv.getD (inp.argv.length - 2) [] ∈ actions ∧
      cfg = { host := host, port := port,
              action := inp.argv.getD (inp.argv.length - 2) [],
              message := encodeRequest (inp.argv.getD (inp.argv.length - 2) [])
                (inp.argv.getD (inp.argv.length - 1) []) } := by
  unfold tcp_client_parse_arguments at h
  simp only [REQUIRED_NUMBER_OF_ARGUMENTS_OFFSET] at h
  split at h
  · exact Outcome.noConfusion h
  · exact Outcome.noConfusion h
  · rename_i host port hloop
    split_ifs at h with h1 h2 h3
    simp only [Outcome.returned.injEq] at h
    refine ⟨host, port, hloop, ?_, (actionLoop_iff _ _).mp h3, h.symm⟩
    simp only [Int.ofNat_eq_coe] at h1 h2
    omega

/-! ## Facts about `tcp_client_connect` -/

theorem connectLoop_all_fail (l : List Addrinfo) (cand : Nat)
    (h : ∀ p ∈ l, p.socket_ret = -1 ∨ p.connect_ret = -1) :
    (connectLoop cand l).2 = none ∧
      attempted (connectLoop cand l).1 = List.range' cand l.length := by
  induction l generalizing cand with
  | nil => simp [connectLoop, attempted]
  | cons p rest ih =>
    have hrest := ih (cand + 1) (fun q hq => h q (List.mem_cons_of_mem _ hq))
    have hp := h p (List.mem_cons_self _ _)
    unfold connectLoop
    by_cases hs : p.socket_ret = -1
    · simp [hs, attempted, hrest.1, hrest.2, List.range']
    · have hc : p.connect_ret = -1 := by
        rcases hp with h1 | h1
        · exact absurd h1 hs
        · exact h1
      simp [hs, hc, attempted, hrest.1, hrest.2, List.range']

theorem connectLoop_first_success (pre : List Addrinfo) (c : Addrinfo) (post : List Addrinfo)
    (cand : Nat) (h : ∀ p ∈ pre, p.socket_ret = -1 ∨ p.connect_ret = -1)
    (hs : c.socket_ret ≠ -1) (hc : c.connect_ret ≠ -1) :
    (connectLoop cand (pre ++ c :: post)).2 = some c.socket_ret ∧
      attempted (connectLoop cand (pre ++ c :: post)).1 =
        List.range' cand (pre.length + 1) := by
  induction pre generalizing cand with
  | nil => simp [connectLoop, attempted, hs, hc, List.range']
  | cons p rest ih =>
    have hrest := ih (cand + 1) (fun q hq => h q (List.mem_cons_of_mem _ hq))
    have hp := h p (List.mem_cons_self _ _)
    simp only [List.cons_append, List.length_cons]
    unfold connectLoop
    by_cases hs1 : p.socket_ret = -1
    · simp [hs1, attempted, hrest.1, hrest.2, List.range']
    · have hc1 : p.connect_ret = -1 := by
        rcases hp with h1 | h1
        · exact absurd h1 hs1
        · exact h1
      simp [hs1, hc1, attempted, hrest.1, hrest.2, List.range']

theorem connectLoop_some (l : List Addrinfo) (cand : Nat) (fd : Int)
    (h : (connectLoop cand l).2 = some fd) :
    fd ≠ -1 ∧ ∃ p ∈ l, p.socket_ret ≠ -1 ∧ p.connect_ret ≠ -1 := by
  induction l generalizing cand with
  | nil => simp [connectLoop] at h
  | cons p rest ih =>
    unfold connectLoop at h
    by_cases hs : p.socket_ret = -1
    · simp only [hs, if_true] at h
      obtain ⟨h1, q, hq, h2⟩ := ih (cand + 1) h
      exact ⟨h1, q, List.mem_cons_of_mem _ hq, h2⟩
    · by_cases hc : p.connect_ret = -1
      · simp only [hs, hc, if_true, if_false] at h
        obtain ⟨h1, q, hq, h2⟩ := ih (cand + 1) h
        exact ⟨h1, q, List.mem_cons_of_mem _ hq, h2⟩
      · simp only [hs, hc, if_false, Option.some.injEq] at h
        exact ⟨h ▸ hs, p, List.mem_cons_self _ _, hs, hc⟩

theorem tcp_client_connect_eq (servinfo : List Addrinfo) :
    tcp_client_connect 0 servinfo =
      ((connectLoop 0 servinfo).1,
        match (connectLoop 0 servinfo).2 with
        | none => Outcome.returned (-1)
        | some sockfd => Outcome.returned sockfd) := by
  unfold tcp_client_connect
  rcases h : connectLoop 0 servinfo with ⟨t, _ | fd⟩ <;> simp

/-! ## Facts about traces and memory -/

theorem bufferWrites_append (t u : List Event) :
    bufferWrites (t ++ u) = bufferWrites t ++ bufferWrites u := by
  induction t with
  | nil => rfl
  | cons e t ih => simp [bufferWrites, ih]

theorem blockWrites_append (offset : Nat) (a b : List Char) :
    blockWrites offset (a ++ b) = blockWrites offset a ++ blockWrites (offset + a.length) b := by
  induction a generalizing offset with
  | nil => simp [blockWrites]
  | cons c cs ih => simp [blockWrites, ih, Nat.add_assoc, Nat.add_comm 1]

theorem memAfter_append (mem : Nat → Char) (ws1 ws2 : List (Nat × Char)) :
    memAfter mem (ws1 ++ ws2) = memAfter (memAfter mem ws1) ws2 := by
  induction ws1 generalizing mem with
  | nil => rfl
  | cons w ws ih =>
    obtain ⟨offset, c⟩ := w
    simp [memAfter, ih]

theorem memAfter_blockWrites (mem : Nat → Char) (offset : Nat) (bytes : List Char) (j : Nat) :
    memAfter mem (blockWrites offset bytes) j =
      if offset ≤ j ∧ j < offset + bytes.length then bytes.getD (j - offset) NUL else mem j := by
  induction bytes generalizing mem offset with
  | nil =>
    have h0 : ¬ (offset ≤ j ∧ j < offset + ([] : List Char).length) := by
      simp only [List.length_nil]; omega
    rw [if_neg h0]
    rfl
  | cons c cs ih =>
    simp only [blockWrites, memAfter, ih, List.length_cons]
    by_cases h1 : offset + 1 ≤ j ∧ j < offset + 1 + cs.length
    · have h2 : offset ≤ j ∧ j < offset + (cs.length + 1) := by omega
      have h3 : j - offset = (j - (offset + 1)) + 1 := by omega
      rw [if_pos h1, if_pos h2, h3, List.getD_cons_succ]
    · rw [if_neg h1]
      by_cases h4 : j = offset
      · have h2 : offset ≤ j ∧ j < offset + (cs.length + 1) := by omega
        rw [if_pos h4, if_pos h2, h4, Nat.sub_self, List.getD_cons_zero]
      · have h2 : ¬ (offset ≤ j ∧ j < offset + (cs.length + 1)) := by omega
        rw [if_neg h4, if_neg h2]

theorem readMem_blockWrites (mem : Nat → Char) (bytes : List Char) :
    readMem (memAfter mem (blockWrites 0 bytes)) bytes.length = bytes := by
  apply List.ext_getElem
  · simp [readMem]
  · intro n h1 h2
    have hn : n < bytes.length := h2
    simp only [readMem, List.getElem_map, List.getElem_range, memAfter_blockWrites]
    have h3 : 0 ≤ n ∧ n < 0 + bytes.length := by omega
    rw [if_pos h3, Nat.sub_zero, List.getD_eq_getElem _ _ hn]

theorem readMem_succ (mem : Nat → Char) (n : Nat) :
    readMem mem (n + 1) = readMem mem n ++ [mem n] := by
  simp [readMem, List.range_succ]

theorem readMem_congr (m1 m2 : Nat → Char) (n : Nat) (h : ∀ j, j < n → m1 j = m2 j) :
    readMem m1 n = readMem m2 n := by
  apply List.map_congr_left
  intro j hj
  exact h j (List.mem_range.mp hj)

/-- Content of the buffer after a block of bytes stored from offset 0 and a
terminator stored behind it. -/
theorem readMem_block_then_store (mem : Nat → Char) (bytes : List Char) :
    readMem (memAfter mem (blockWrites 0 bytes ++ [(bytes.length, NUL)])) (bytes.length + 1) =
      bytes ++ [NUL] := by
  rw [memAfter_append, readMem_succ]
  have h1 : readMem (memAfter (memAfter mem (blockWrites 0 bytes)) [(bytes.length, NUL)])
      bytes.length = bytes := by
    refine Eq.trans (readMem_congr _ _ _ ?_) (readMem_blockWrites mem bytes)
    intro j hj
    have : j ≠ bytes.length := by omega
    simp [memAfter, this]
  rw [h1]
  simp [memAfter]

/-! ## Facts about `tcp_client_receive_response` -/

theorem recvLoop_cons_data (sockfd : Int) (buf_size : Nat) (bytes : List Char)
    (rest : List RecvResult) (total : Nat) (ht : total < buf_size) (hlen : bytes.length ≠ 0) :
    recvLoop sockfd buf_size (RecvResult.data bytes :: rest) total =
      (Event.sys_recv sockfd total buf_size (RecvResult.data bytes) ::
          (recvLoop sockfd buf_size rest (total + bytes.length)).1,
        (recvLoop sockfd buf_size rest (total + bytes.length)).2) := by
  simp [recvLoop, ht, hlen]

theorem recvLoop_fragments (sockfd : Int) (buf_size : Nat) (frags : List (List Char))
    (rest : List RecvResult) (total : Nat)
    (hne : ∀ f ∈ frags, f ≠ [])
    (hfit : total + frags.flatten.length < buf_size) :
    (recvLoop sockfd buf_size (frags.map RecvResult.data ++ RecvResult.data [] :: rest) total).2 =
        Outcome.returned (total + frags.flatten.length) ∧
      bufferWrites
        (recvLoop sockfd buf_size (frags.map RecvResult.data ++ RecvResult.data [] :: rest)
          total).1 = blockWrites total frags.flatten := by
  induction frags generalizing total with
  | nil =>
    have ht : total < buf_size := by simpa using hfit
    simp [recvLoop, ht, bufferWrites, writesOf, blockWrites]
  | cons f fs ih =>
    have hf : f ≠ [] := hne f (List.mem_cons_self _ _)
    have hlen : f.length ≠ 0 := fun e => hf (List.length_eq_zero.mp e)
    have hsum : total + f.length + fs.flatten.length < buf_size := by
      simp only [List.flatten_cons, List.length_append] at hfit
      omega
    have ht : total < buf_size := by omega
    obtain ⟨h1, h2⟩ := ih (total + f.length) (fun g hg => hne g (List.mem_cons_of_mem _ hg)) hsum
    rw [List.map_cons, List.cons_append, recvLoop_cons_data _ _ _ _ _ ht hlen]
    refine ⟨?_, ?_⟩
    · simp only [h1, List.flatten_cons, List.length_append, Nat.add_assoc]
    · simp only [bufferWrites, writesOf, h2, blockWrites_append, List.flatten_cons]

theorem recvCalls_snoc_store (t : List Event) (offset : Nat) (c : Char) :
    recvCalls (t ++ [Event.store offset c]) = recvCalls t ∧
      recvDataCalls (t ++ [Event.store offset c]) = recvDataCalls t := by
  induction t with
  | nil => simp [recvCalls, recvDataCalls]
  | cons e t ih =>
    cases e with
    | sys_recv fd off len ret =>
      cases ret with
      | error => simp [recvCalls, recvDataCalls, ih.1, ih.2]
      | data bytes =>
        cases bytes <;> simp [recvCalls, recvDataCalls, ih.1, ih.2]
    | _ => simp [recvCalls, recvDataCalls, ih.1, ih.2]

theorem recvLoop_terminates (sockfd : Int) (buf_size : Nat) (script : List RecvResult)
    (total : Nat) (hlen : buf_size < total + script.length) :
    (recvLoop sockfd buf_size script total).2 ≠ Outcome.blocked ∧
      recvDataCalls (recvLoop sockfd buf_size script total).1 ≤ buf_size - total ∧
      recvCalls (recvLoop sockfd buf_size script total).1 ≤
        recvDataCalls (recvLoop sockfd buf_size script total).1 + 1 := by
  induction script generalizing total with
  | nil =>
    have ht : ¬ total < buf_size := by simp at hlen; omega
    simp [recvLoop, ht, recvCalls, recvDataCalls]
  | cons r rest ih =>
    by_cases ht : total < buf_size
    · cases r with
      | error => simp [recvLoop, ht, recvCalls, recvDataCalls]
      | data bytes =>
        cases bytes with
        | nil => simp [recvLoop, ht, recvCalls, recvDataCalls]
        | cons c cs =>
          have hlen2 : buf_size < total + (c :: cs).length + rest.length := by
            simp only [List.length_cons] at hlen ⊢
            omega
          obtain ⟨h1, h2, h3⟩ := ih (total + (c :: cs).length) hlen2
          have hnz : (c :: cs).length ≠ 0 := by simp
          simp only [recvLoop, ht, if_true, hnz, if_false, recvCalls, recvDataCalls]
          refine ⟨h1, ?_, ?_⟩
          · simp only [List.length_cons] at h2 ⊢
            omega
          · omega
    · simp [recvLoop, ht, recvCalls, recvDataCalls]

theorem recvLoop_stable (sockfd : Int) (buf_size : Nat) (script extra : List RecvResult)
    (total : Nat) (h : (recvLoop sockfd buf_size script total).2 ≠ Outcome.blocked) :
    recvLoop sockfd buf_size (script ++ extra) total = recvLoop sockfd buf_size script total := by
  induction script generalizing total with
  | nil =>
    by_cases ht : total < buf_size
    · simp [recvLoop, ht] at h
    · cases extra <;> simp [recvLoop, ht]
  | cons r rest ih =>
    by_cases ht : total < buf_size
    · cases r with
      | error => simp [recvLoop, ht]
      | data bytes =>
        by_cases hz : bytes.length = 0
        · simp [recvLoop, ht, hz]
        · rw [recvLoop_cons_data _ _ _ _ _ ht hz] at h
          rw [List.cons_append, recvLoop_cons_data _ _ _ _ _ ht hz,
            recvLoop_cons_data _ _ _ _ _ ht hz, ih _ h]
    · simp [recvLoop, ht]

theorem tcp_client_receive_response_eq (sockfd : Int) (buf_size : Nat)
    (recvs : List RecvResult) :
    tcp_client_receive_response sockfd buf_size recvs =
      (Event.call_receive_response sockfd buf_size ::
          (recvLoop sockfd buf_size recvs 0).1 ++
          (match (recvLoop sockfd buf_size recvs 0).2 with
            | Outcome.returned total => [Event.store total NUL]
            | _ => []),
        match (recvLoop sockfd buf_size recvs 0).2 with
        | Outcome.returned _ => Outcome.returned EXIT_SUCCESS
        | Outcome.exited status => Outcome.exited status
        | Outcome.blocked => Outcome.blocked) := by
  unfold tcp_client_receive_response
  rcases h : recvLoop sockfd buf_size recvs 0 with ⟨t, total | status | _⟩ <;> simp

/-- With the counter as an unbounded natural number, the first `buf_size + 1`
results of any sequence of `recv` results are enough for the model
`tcp_client_receive_response` to end, with at most `buf_size` calls that return
data and at most one call more, and it ends the same way on every longer
stretch of the sequence. By `recvLoop32_eq_recvLoop` this is the program's
behaviour while twice the buffer size fits an `int`. -/
theorem receive_response_model_terminates (sockfd : Int) (buf_size : Nat)
    (reads : Nat → RecvResult) :
    (tcp_client_receive_response sockfd buf_size
        ((List.range (buf_size + 1)).map reads)).2 ≠ Outcome.blocked ∧
    recvDataCalls (tcp_client_receive_response sockfd buf_size
        ((List.range (buf_size + 1)).map reads)).1 ≤ buf_size ∧
    recvCalls (tcp_client_receive_response sockfd buf_size
        ((List.range (buf_size + 1)).map reads)).1 ≤
      recvDataCalls (tcp_client_receive_response sockfd buf_size
        ((List.range (buf_size + 1)).map reads)).1 + 1 ∧
    ∀ m, buf_size + 1 ≤ m →
      tcp_client_receive_response sockfd buf_size ((List.range m).map reads) =
        tcp_client_receive_response sockfd buf_size
          ((List.range (buf_size + 1)).map reads) := by
  have hlen : buf_size < 0 + ((List.range (buf_size + 1)).map reads).length := by simp
  obtain ⟨h1, h2, h3⟩ := recvLoop_terminates sockfd buf_size _ 0 hlen
  have hcount : ∀ (t u : List Event), (u = [] ∨ ∃ o c, u = [Event.store o c]) →
      recvCalls (Event.call_receive_response sockfd buf_size :: t ++ u) = recvCalls t ∧
      recvDataCalls (Event.call_receive_response sockfd buf_size :: t ++ u) =
        recvDataCalls t := by
    intro t u hu
    rcases hu with hu | ⟨o, c, hu⟩
    · subst hu
      simp [recvCalls, recvDataCalls]
    · subst hu
      simp only [List.cons_append, recvCalls, recvDataCalls]
      exact recvCalls_snoc_store t o c
  refine ⟨?_, ?_, ?_, ?_⟩
  · rw [tcp_client_receive_response_eq]
    intro hb
    apply h1
    revert hb
    cases (recvLoop sockfd buf_size ((List.range (buf_size + 1)).map reads) 0).2 <;> simp
  · rw [tcp_client_receive_response_eq]
    have hu := hcount (recvLoop sockfd buf_size ((List.range (buf_size + 1)).map reads) 0).1
      (match (recvLoop sockfd buf_size ((List.range (buf_size + 1)).map reads) 0).2 with
        | Outcome.returned total => [Event.store total NUL]
        | _ => [])
      (by cases (recvLoop sockfd buf_size ((List.range (buf_size + 1)).map reads) 0).2 <;> simp)
    simp only [hu.2]
    omega
  · rw [tcp_client_receive_response_eq]
    have hu := hcount (recvLoop sockfd buf_size ((List.range (buf_size + 1)).map reads) 0).1
      (match (recvLoop sockfd buf_size ((List.range (buf_size + 1)).map reads) 0).2 with
        | Outcome.returned total => [Event.store total NUL]
        | _ => [])
      (by cases (recvLoop sockfd buf_size ((List.range (buf_size + 1)).map reads) 0).2 <;> simp)
    simp only [hu.1, hu.2]
    exact h3
  · intro m hm
    obtain ⟨k, hk⟩ : ∃ k, m = (buf_size + 1) + k := ⟨m - (buf_size + 1), by omega⟩
    subst hk
    rw [List.range_add, List.map_append]
    rw [tcp_client_receive_response_eq, tcp_client_receive_response_eq,
      recvLoop_stable _ _ _ _ _ h1]

/-! ## Facts about the receive loop with 32-bit counters -/

theorem wrapInt_of_range (x : Int) (h0 : -2147483648 ≤ x) (h1 : x ≤ 2147483647) :
    wrapInt x = x := by
  unfold wrapInt
  omega

/-- The loop with 32-bit counters does what the loop with unbounded counters
does as long as twice the buffer size fits an `int` and no `recv` returns more
bytes than the `buf_size` it was asked for. -/
theorem recvLoop32_eq_recvLoop (sockfd : Int) (buf_size : Nat) (script : List RecvResult)
    (total : Nat) (hsize : 2 * buf_size ≤ 2147483648)
    (hwf : ∀ bytes, RecvResult.data bytes ∈ script → bytes.length ≤ buf_size) :
    recvLoop32 (buf_size : Int) script (total : Int) =
      (recvCalls (recvLoop sockfd buf_size script total).1,
        Outcome.map Int.ofNat (recvLoop sockfd buf_size script total).2) := by
  induction script generalizing total with
  | nil =>
    by_cases ht : total < buf_size
    · have hti : (total : Int) < (buf_size : Int) := by omega
      simp [recvLoop32, recvLoop, ht, hti, recvCalls, Outcome.map]
    · have hti : ¬ (total : Int) < (buf_size : Int) := by omega
      simp [recvLoop32, recvLoop, ht, hti, recvCalls, Outcome.map]
  | cons r rest ih =>
    have hrest : ∀ bytes, RecvResult.data bytes ∈ rest → bytes.length ≤ buf_size :=
      fun bytes hb => hwf bytes (List.mem_cons_of_mem _ hb)
    by_cases ht : total < buf_size
    · have hti : (total : Int) < (buf_size : Int) := by omega
      cases r with
      | error => simp [recvLoop32, recvLoop, ht, hti, recvCalls, Outcome.map]
      | data bytes =>
        have hlen : bytes.length ≤ buf_size := hwf bytes (List.mem_cons_self _ _)
        by_cases hz : bytes.length = 0
        · simp [recvLoop32, recvLoop, ht, hti, hz, recvCalls, Outcome.map]
        · have hzi : ¬ (bytes.length : Int) = 0 := by omega
          have hw : wrapInt ((total : Int) + (bytes.length : Int)) =
              ((total + bytes.length : Nat) : Int) := by
            rw [wrapInt_of_range _ (by omega) (by omega)]
            simp
          rw [recvLoop_cons_data _ _ _ _ _ ht hz]
          simp only [recvLoop32, hti, if_true, hzi, if_false, hw, ih _ hrest, recvCalls]
    · have hti : ¬ (total : Int) < (buf_size : Int) := by omega
      simp [recvLoop32, recvLoop, ht, hti, recvCalls, Outcome.map]

/-- Inside the range of `int` the loop with 32-bit counters ends: when twice
the buffer size fits an `int` and no `recv` returns more than it was asked for,
`buf_size + 1` results are enough, and at most that many `recv` calls are
made. -/
theorem recvLoop32_terminates (buf_size : Nat) (script : List RecvResult)
    (hsize : 2 * buf_size ≤ 2147483648)
    (hwf : ∀ bytes, RecvResult.data bytes ∈ script → bytes.length ≤ buf_size)
    (hlen : buf_size < script.length) :
    (recvLoop32 (buf_size : Int) script 0).2 ≠ Outcome.blocked ∧
      (recvLoop32 (buf_size : Int) script 0).1 ≤ buf_size + 1 := by
  have heq := recvLoop32_eq_recvLoop 0 buf_size script 0 hsize hwf
  have hlen0 : buf_size < 0 + script.length := by omega
  obtain ⟨h1, h2, h3⟩ := recvLoop_terminates 0 buf_size script 0 hlen0
  simp only [Nat.cast_zero] at heq
  rw [heq]
  refine ⟨?_, by simp only; omega⟩
  simp only
  cases h : (recvLoop 0 buf_size script 0).2 with
  | returned a => simp [Outcome.map]
  | exited status => simp [Outcome.map]
  | blocked => exact absurd h h1

theorem sendLoop_no_close (sockfd fd : Int) (message : CString) (message_length : Nat)
    (script : List SendResult) (total : Nat) :
    Event.sys_close fd ∉ (sendLoop sockfd message message_length script total).1 := by
  induction script generalizing total with
  | nil => unfold sendLoop; split <;> simp
  | cons r rest ih =>
    unfold sendLoop
    split
    · cases r with
      | error => simp
      | accepted n => simpa using ih (total + n)
    · simp

theorem recvLoop_no_close (sockfd fd : Int) (buf_size : Nat) (script : List RecvResult)
    (total : Nat) : Event.sys_close fd ∉ (recvLoop sockfd buf_size script total).1 := by
  induction script generalizing total with
  | nil => unfold recvLoop; split <;> simp
  | cons r rest ih =>
    unfold recvLoop
    split
    · cases r with
      | error => simp
      | data bytes =>
        by_cases hz : bytes.length = 0
        · simp [hz]
        · simpa [hz] using ih (total + bytes.length)
    · simp

theorem send_request_no_close (sockfd fd : Int) (config : Config) (sends : List SendResult) :
    Event.sys_close fd ∉ (tcp_client_send_request sockfd config sends).1 := by
  simpa [tcp_client_send_request] using sendLoop_no_close sockfd fd _ _ sends 0

theorem receive_response_no_close (sockfd fd : Int) (buf_size : Nat)
    (recvs : List RecvResult) :
    Event.sys_close fd ∉ (tcp_client_receive_response sockfd buf_size recvs).1 := by
  rw [tcp_client_receive_response_eq]
  have h := recvLoop_no_close sockfd fd buf_size recvs 0
  cases (recvLoop sockfd buf_size recvs 0).2 <;> simpa using h

theorem send_request_status (sockfd : Int) (config : Config) (sends : List SendResult) :
    (∀ v, (tcp_client_send_request sockfd config sends).2 = Outcome.returned v →
      v = EXIT_SUCCESS) ∧
    (∀ status, (tcp_client_send_request sockfd config sends).2 = Outcome.exited status →
      status = EXIT_FAILURE) := by
  have key : ∀ (script : List SendResult) (total : Nat),
      (∀ v, (sendLoop sockfd config.message (strlen config.message) script total).2 =
          Outcome.returned v → v = EXIT_SUCCESS) ∧
      (∀ status, (sendLoop sockfd config.message (strlen config.message) script total).2 =
          Outcome.exited status → status = EXIT_FAILURE) := by
    intro script
    induction script with
    | nil =>
      intro total
      unfold sendLoop
      split <;> simp
    | cons r rest ih =>
      intro total
      unfold sendLoop
      split
      · cases r with
        | error => simp
        | accepted n => simpa using ih (total + n)
      · simp
  simpa [tcp_client_send_request] using key sends 0

theorem receive_response_status (sockfd : Int) (buf_size : Nat) (recvs : List RecvResult) :
    (∀ v, (tcp_client_receive_response sockfd buf_size recvs).2 = Outcome.returned v →
      v = EXIT_SUCCESS) ∧
    (∀ status, (tcp_client_receive_response sockfd buf_size recvs).2 = Outcome.exited status →
      status = EXIT_FAILURE) := by
  have key : ∀ (script : List RecvResult) (total : Nat) (status : Int),
      (recvLoop sockfd buf_size script total).2 = Outcome.exited status →
        status = EXIT_FAILURE := by
    intro script
    induction script with
    | nil =>
      intro total status
      unfold recvLoop
      split <;> simp
    | cons r rest ih =>
      intro total status
      unfold recvLoop
      split
      · cases r with
        | error => simp; intro h; exact h.symm
        | data bytes =>
          by_cases hz : bytes.length = 0
          · simp [hz]
          · simpa [hz] using ih (total + bytes.length) status
      · simp
  rw [tcp_client_receive_response_eq]
  constructor
  · intro v
    cases (recvLoop sockfd buf_size recvs 0).2 <;> simp
    intro h; exact h.symm
  · intro status
    have hk := key recvs 0 status
    cases h : (recvLoop sockfd buf_size recvs 0).2 <;> simp
    rw [h] at hk
    intro e
    exact hk (by rw [e])

/-- Whenever `tcp_client_connect` returns `-1`, `main` goes on to call
`tcp_client_send_request` with the handle `-1`. -/
theorem main_calls_send_after_failed_connect (hdr : Header) (inp : ParseInput) (env : Env)
    (config : Config) (t0 : List Event)
    (hparse : tcp_client_parse_arguments hdr inp = Outcome.returned config)
    (hconn : tcp_client_connect env.getaddrinfo_ret env.servinfo = (t0, Outcome.returned (-1))) :
    Event.call_send_request (-1) ∈ (main hdr inp env).1 := by
  unfold main
  rw [hparse]
  simp only [hconn]
  apply List.mem_append_right
  unfold mainAfterConnect
  have hs : ∃ t, (tcp_client_send_request (-1) config env.sends).1 =
      Event.call_send_request (-1) :: t := ⟨_, rfl⟩
  obtain ⟨t, ht⟩ := hs
  rcases h1 : tcp_client_send_request (-1) config env.sends with ⟨t1, v | status | _⟩
  · rw [h1] at ht
    simp only at ht
    subst ht
    rcases h2 : tcp_client_receive_response (-1) hdr.TCP_CLIENT_MAX_INPUT_SIZE env.recvs with
      ⟨t2, v2 | status2 | _⟩ <;> simp
  · rw [h1] at ht
    simp only at ht
    subst ht
    simp
  · rw [h1] at ht
    simp only at ht
    subst ht
    simp

/-- The end-to-end run of the specification: `tcp_client uppercase hi` against a
server that answers `HI` and closes sends `uppercase 2 hi`, prints `HI` and
returns `EXIT_SUCCESS` after closing the socket. -/
theorem main_uppercase_hi :
    main sampleHeader sampleArgsHi envUppercaseHi =
      ([Event.sys_socket 0 3, Event.sys_connect 0 3 (-1), Event.sys_close 3,
        Event.sys_socket 1 4, Event.sys_connect 1 4 0,
        Event.call_send_request 4,
        Event.sys_send 4 "uppercase 2 hi".toList 14 (SendResult.accepted 14),
        Event.call_receive_response 4 1024,
        Event.sys_recv 4 0 1024 (RecvResult.data "HI".toList),
        Event.sys_recv 4 2 1024 (RecvResult.data []),
        Event.store 2 NUL,
        Event.print "HI".toList,
        Event.sys_close 4], Outcome.returned EXIT_SUCCESS) ∧
    wireBytes (main sampleHeader sampleArgsHi envUppercaseHi).1 = "uppercase 2 hi".toList := by
  decide

/-! ## The claims -/

/-- C3: whenever `tcp_client_parse_arguments` returns, the action it stored is
`argv[argc - 2]`, one of the five table entries, and the request it built is
that action, one space, the decimal length of the original `argv[argc - 1]`,
one space, and the original `argv[argc - 1]`, with nothing before or after.
For every table action and every message, every call whose argument vector
ends in that action and that message, with `optind` at the action and an option
loop that is left normally, returns with that action and exactly that request. -/
theorem parse_arguments_builds_request (hdr : Header) (inp : ParseInput) :
    (∀ cfg, tcp_client_parse_arguments hdr inp = Outcome.returned cfg →
      cfg.action = inp.argv.getD (inp.argv.length - 2) [] ∧
      cfg.action ∈ actions ∧
      cfg.message =
        cfg.action ++ [SPACE] ++
          toDecimal (strlen (inp.argv.getD (inp.argv.length - 1) [])) ++ [SPACE] ++
          inp.argv.getD (inp.argv.length - 1) []) ∧
    (∀ front action message host port, action ∈ actions →
      inp.argv = front ++ [action, message] → inp.optind = front.length →
      optionLoop hdr.TCP_CLIENT_DEFAULT_HOST hdr.TCP_CLIENT_DEFAULT_PORT inp.getopt =
        Outcome.returned (host, port) →
      ∃ cfg, tcp_client_parse_arguments hdr inp = Outcome.returned cfg ∧
        cfg.action = action ∧
        cfg.message =
          action ++ [SPACE] ++ toDecimal (strlen message) ++ [SPACE] ++ message) := by
  constructor
  · intro cfg h
    obtain ⟨host, port, _, _, hact, hcfg⟩ := parse_returned hdr inp cfg h
    subst hcfg
    refine ⟨rfl, hact, ?_⟩
    simp [encodeRequest_eq]
  · intro front action message host port hact hargv hoptind hopt
    have hloop : actionLoop action actions = true := (actionLoop_iff _ _).mpr hact
    obtain ⟨argv, evs, optind⟩ := inp
    simp only at hargv hoptind hopt
    subst hargv
    subst hoptind
    obtain ⟨h2, h1⟩ := getD_last_two front action message []
    refine ⟨{ host := host, port := port, action := action,
              message := encodeRequest action message }, ?_, rfl, ?_⟩
    · unfold tcp_client_parse_arguments
      simp only [hopt, REQUIRED_NUMBER_OF_ARGUMENTS_OFFSET, h1, h2, hloop]
      simp
    · simp [encodeRequest_eq]

/-- C3 at the action `uppercase`: the message `hi` gives the request
`uppercase 2 hi`, the empty message gives the length field `0`, and the
message `-v x` given after `--` gives `uppercase 4 -v x`. -/
theorem parse_arguments_builds_request_witness :
    ("uppercase".toList ++ [SPACE] ++ toDecimal (strlen "hi".toList) ++ [SPACE] ++
        "hi".toList = "uppercase 2 hi".toList ∧
      "uppercase".toList ++ [SPACE] ++ toDecimal (strlen ([] : CString)) ++ [SPACE] ++ [] =
        "uppercase 0 ".toList ∧
      "uppercase".toList ++ [SPACE] ++ toDecimal (strlen "-v x".toList) ++ [SPACE] ++
        "-v x".toList = "uppercase 4 -v x".toList) ∧
    (∃ cfg, tcp_client_parse_arguments sampleHeader
        { argv := ["tcp_client".toList, "uppercase".toList, "hi".toList], getopt := [],
          optind := 1 } = Outcome.returned cfg ∧
      cfg.action = "uppercase".toList ∧
      cfg.message = "uppercase".toList ++ [SPACE] ++ toDecimal (strlen "hi".toList) ++
        [SPACE] ++ "hi".toList) ∧
    (∃ cfg, tcp_client_parse_arguments sampleHeader
        { argv := ["tcp_client".toList, "uppercase".toList, []], getopt := [],
          optind := 1 } = Outcome.returned cfg ∧
      cfg.action = "uppercase".toList ∧
      cfg.message = "uppercase".toList ++ [SPACE] ++ toDecimal (strlen ([] : CString)) ++
        [SPACE] ++ []) ∧
    (∃ cfg, tcp_client_parse_arguments sampleHeader
        { argv := ["tcp_client".toList, "--".toList, "uppercase".toList, "-v x".toList],
          getopt := [], optind := 2 } = Outcome.returned cfg ∧
      cfg.action = "uppercase".toList ∧
      cfg.message = "uppercase".toList ++ [SPACE] ++ toDecimal (strlen "-v x".toList) ++
        [SPACE] ++ "-v x".toList) :=
  ⟨⟨by decide, by decide, by decide⟩,
    (parse_arguments_builds_request sampleHeader
      { argv := ["tcp_client".toList, "uppercase".toList, "hi".toList], getopt := [],
        optind := 1 }).2 ["tcp_client".toList] "uppercase".toList "hi".toList
      "localhost".toList "8080".toList (by decide) rfl rfl rfl,
    (parse_arguments_builds_request sampleHeader
      { argv := ["tcp_client".toList, "uppercase".toList, []], getopt := [],
        optind := 1 }).2 ["tcp_client".toList] "uppercase".toList []
      "localhost".toList "8080".toList (by decide) rfl rfl rfl,
    (parse_arguments_builds_request sampleHeader
      { argv := ["tcp_client".toList, "--".toList, "uppercase".toList, "-v x".toList],
        getopt := [], optind := 2 }).2 ["tcp_client".toList, "--".toList]
      "uppercase".toList "-v x".toList "localhost".toList "8080".toList (by decide)
      rfl rfl rfl⟩

/-- C9: two requests built from table actions are equal only when the actions
are equal and the messages are equal; splitting a request on its first two
spaces gives back the action, the decimal length of the message and the
message, whatever the message contains. -/
theorem request_framing_unambiguous (a1 a2 m1 m2 : CString)
    (h1 : a1 ∈ actions) (h2 : a2 ∈ actions) :
    (encodeRequest a1 m1 = encodeRequest a2 m2 → a1 = a2 ∧ m1 = m2) ∧
    splitRequest (encodeRequest a1 m1) = (a1, toDecimal (strlen m1), m1) := by
  have s1 := splitRequest_encodeRequest a1 m1 (actions_no_space a1 h1)
  have s2 := splitRequest_encodeRequest a2 m2 (actions_no_space a2 h2)
  refine ⟨?_, s1⟩
  intro heq
  rw [heq, s2] at s1
  simp only [Prod.mk.injEq] at s1
  exact ⟨s1.1.symm, s1.2.2.symm⟩

/-- C9 at a message with spaces: `reverse` with `a b c` is read back as the
action `reverse`, the length `5` and the message `a b c`. -/
theorem request_framing_unambiguous_witness :
    ("reverse".toList ∈ actions ∧ "reverse".toList ∈ actions) ∧
    encodeRequest "reverse".toList "a b c".toList = "reverse 5 a b c".toList ∧
    toDecimal (strlen "a b c".toList) = "5".toList ∧
    (encodeRequest "reverse".toList "a b c".toList =
        encodeRequest "reverse".toList "a b c".toList →
      "reverse".toList = "reverse".toList ∧ "a b c".toList = "a b c".toList) ∧
    splitRequest (encodeRequest "reverse".toList "a b c".toList) =
      ("reverse".toList, toDecimal (strlen "a b c".toList), "a b c".toList) :=
  ⟨⟨by decide, by decide⟩, by decide, by decide,
    request_framing_unambiguous "reverse".toList "reverse".toList "a b c".toList
      "a b c".toList (by decide) (by decide)⟩

/-- C7: when the address list is some failing entries, then an entry whose
`socket` and `connect` both succeed, then anything, `tcp_client_connect`
returns the handle of that entry and calls `socket` exactly for the entries up
to and including it, in list order. It returns `-1` exactly when every entry
fails, and then it has tried every entry in list order. -/
theorem connect_returns_first_success (servinfo : List Addrinfo) :
    (∀ pre c post, servinfo = pre ++ c :: post →
      (∀ p ∈ pre, p.socket_ret = -1 ∨ p.connect_ret = -1) →
      c.socket_ret ≠ -1 → c.connect_ret ≠ -1 →
      (tcp_client_connect 0 servinfo).2 = Outcome.returned c.socket_ret ∧
      attempted (tcp_client_connect 0 servinfo).1 = List.range (pre.length + 1)) ∧
    ((tcp_client_connect 0 servinfo).2 = Outcome.returned (-1) ↔
      ∀ p ∈ servinfo, p.socket_ret = -1 ∨ p.connect_ret = -1) ∧
    ((∀ p ∈ servinfo, p.socket_ret = -1 ∨ p.connect_ret = -1) →
      attempted (tcp_client_connect 0 servinfo).1 = List.range servinfo.length) := by
  rw [tcp_client_connect_eq]
  refine ⟨?_, ?_, ?_⟩
  · intro pre c post hl hpre hs hc
    subst hl
    obtain ⟨h1, h2⟩ := connectLoop_first_success pre c post 0 hpre hs hc
    simp only [h1, h2, List.range_eq_range', and_self]
  · constructor
    · intro h p hp
      by_contra hcon
      push_neg at hcon
      obtain ⟨pre, post, hsplit, hfirst⟩ :
          ∃ pre post, servinfo = pre ++ post ∧
            (∀ q ∈ pre, q.socket_ret = -1 ∨ q.connect_ret = -1) ∧
            ∃ c rest, post = c :: rest ∧ c.socket_ret ≠ -1 ∧ c.connect_ret ≠ -1 := by
        clear h
        induction servinfo with
        | nil => simp at hp
        | cons a rest ih =>
          by_cases ha : a.socket_ret = -1 ∨ a.connect_ret = -1
          · have hmem : p ∈ rest := by
              rcases List.mem_cons.mp hp with e | e
              · subst e
                rcases ha with ha | ha
                · exact absurd ha hcon.1
                · exact absurd ha hcon.2
              · exact e
            obtain ⟨pre, post, e1, e2, e3⟩ := ih hmem
            refine ⟨a :: pre, post, by simp [e1], ?_, e3⟩
            intro q hq
            rcases List.mem_cons.mp hq with e | e
            · rw [e]; exact ha
            · exact e2 q e
          · push_neg at ha
            exact ⟨[], a :: rest, rfl, by simp, a, rest, rfl, ha.1, ha.2⟩
      obtain ⟨hpre, c, rest, hpost, hs, hc⟩ := hfirst
      subst hpost
      subst hsplit
      rw [(connectLoop_first_success pre c rest 0 hpre hs hc).1] at h
      simp only [Outcome.returned.injEq] at h
      exact hs h
    · intro h
      rw [(connectLoop_all_fail servinfo 0 h).1]
  · intro h
    simp only [(connectLoop_all_fail servinfo 0 h).2, List.range_eq_range']

/-- C7 at a list of two entries: `connect` fails for the first (handle 3,
closed again) and succeeds for the second (handle 4), so handle 4 is returned
after both entries were tried in order. -/
theorem connect_returns_first_success_witness :
    (tcp_client_connect 0 [⟨3, -1⟩, ⟨4, 0⟩, ⟨5, 0⟩]).2 = Outcome.returned 4 ∧
    attempted (tcp_client_connect 0 [⟨3, -1⟩, ⟨4, 0⟩, ⟨5, 0⟩]).1 = List.range 2 :=
  (connect_returns_first_success [⟨3, -1⟩, ⟨4, 0⟩, ⟨5, 0⟩]).1 [⟨3, -1⟩] ⟨4, 0⟩ [⟨5, 0⟩] rfl
    (by decide) (by decide) (by decide)

/-- C4: for every buffer size and every list of non-empty fragments whose
total length is below the buffer size, delivered one per `recv` call and
followed by a `recv` that returns zero bytes, `tcp_client_receive_response`
returns `EXIT_SUCCESS` and the buffer then starts with the concatenation of
the fragments followed by the terminator, whatever it held before and whatever
the way the bytes were split. -/
theorem receive_response_concatenates (sockfd : Int) (buf_size : Nat)
    (frags : List (List Char)) (rest : List RecvResult) (mem : Nat → Char)
    (hne : ∀ f ∈ frags, f ≠ []) (hfit : frags.flatten.length < buf_size) :
    (tcp_client_receive_response sockfd buf_size
        (frags.map RecvResult.data ++ RecvResult.data [] :: rest)).2 =
      Outcome.returned EXIT_SUCCESS ∧
    readMem
        (memAfter mem (bufferWrites (tcp_client_receive_response sockfd buf_size
          (frags.map RecvResult.data ++ RecvResult.data [] :: rest)).1))
        (frags.flatten.length + 1) =
      frags.flatten ++ [NUL] := by
  have hfit0 : 0 + frags.flatten.length < buf_size := by omega
  obtain ⟨h1, h2⟩ := recvLoop_fragments sockfd buf_size frags rest 0 hne hfit0
  rw [tcp_client_receive_response_eq, h1]
  refine ⟨rfl, ?_⟩
  simp only [Nat.zero_add]
  rw [bufferWrites_append]
  simp only [bufferWrites, writesOf, List.nil_append, List.append_nil, h2]
  exact readMem_block_then_store mem frags.flatten

/-- C4 on `HELLO`: sent in one piece or in pieces of 2, 1 and 2 bytes, then
closed, the buffer of size 1024 holds `HELLO` and the terminator; the peer that
sends nothing and closes leaves the empty string. -/
theorem receive_response_concatenates_witness :
    ((∀ f ∈ ["HE".toList, "L".toList, "LO".toList], f ≠ []) ∧
      ["HE".toList, "L".toList, "LO".toList].flatten.length < 1024) ∧
    readMem
        (memAfter (fun _ => 'x') (bufferWrites (tcp_client_receive_response 3 1024
          ([RecvResult.data "HE".toList, RecvResult.data "L".toList,
            RecvResult.data "LO".toList] ++ RecvResult.data [] :: [])).1)) 6 =
      "HELLO".toList ++ [NUL] ∧
    readMem
        (memAfter (fun _ => 'x') (bufferWrites (tcp_client_receive_response 3 1024
          ([RecvResult.data "HELLO".toList] ++ RecvResult.data [] :: [])).1)) 6 =
      "HELLO".toList ++ [NUL] ∧
    readMem
        (memAfter (fun _ => 'x') (bufferWrites (tcp_client_receive_response 3 1024
          ([] ++ RecvResult.data [] :: [])).1)) 1 = [NUL] :=
  ⟨⟨by decide, by decide⟩,
    (receive_response_concatenates 3 1024 ["HE".toList, "L".toList, "LO".toList] []
      (fun _ => 'x') (by decide) (by decide)).2,
    (receive_response_concatenates 3 1024 ["HELLO".toList] []
      (fun _ => 'x') (by decide) (by decide)).2,
    (receive_response_concatenates 3 1024 [] []
      (fun _ => 'x') (by decide) (by decide)).2⟩

/-- C1, the run that breaks it: for the command line `tcp_client random a` the
request is the 10 bytes `random 1 a`; when `send` takes 3, 3, 3 and 1 bytes,
`tcp_client_send_request` returns `EXIT_SUCCESS`, every call passed the pointer
to the start of the request, and the transport got `ranranranr`, not the
request. -/
theorem send_request_resends_start :
    tcp_client_parse_arguments sampleHeader sampleArgs = Outcome.returned sampleConfig ∧
    tcp_client_send_request 3 sampleConfig
        [SendResult.accepted 3, SendResult.accepted 3, SendResult.accepted 3,
          SendResult.accepted 1] =
      ([Event.call_send_request 3,
        Event.sys_send 3 "random 1 a".toList 10 (SendResult.accepted 3),
        Event.sys_send 3 "random 1 a".toList 7 (SendResult.accepted 3),
        Event.sys_send 3 "random 1 a".toList 4 (SendResult.accepted 3),
        Event.sys_send 3 "random 1 a".toList 1 (SendResult.accepted 1)],
        Outcome.returned EXIT_SUCCESS) ∧
    wireBytes (tcp_client_send_request 3 sampleConfig
        [SendResult.accepted 3, SendResult.accepted 3, SendResult.accepted 3,
          SendResult.accepted 1]).1 = "ranranranr".toList ∧
    wireBytes (tcp_client_send_request 3 sampleConfig
        [SendResult.accepted 3, SendResult.accepted 3, SendResult.accepted 3,
          SendResult.accepted 1]).1 ≠ sampleConfig.message := by
  decide

/-- C2, the runs that break it: with `buf_size = 4`, a `recv` that returns 4
bytes (as many as it was asked for) fills offsets 0 to 3 and the terminator is
stored at offset 4, outside the buffer, after 4 payload bytes and not 3; a
`recv` of 3 bytes followed by one of 4 bytes stores payload at offsets 0 to 6
and the terminator at offset 7. -/
theorem receive_response_writes_past_buffer :
    tcp_client_receive_response 3 4 [RecvResult.data "ABCD".toList] =
      ([Event.call_receive_response 3 4,
        Event.sys_recv 3 0 4 (RecvResult.data "ABCD".toList),
        Event.store 4 NUL], Outcome.returned EXIT_SUCCESS) ∧
    (bufferWrites (tcp_client_receive_response 3 4 [RecvResult.data "ABCD".toList]).1).map
        Prod.fst = [0, 1, 2, 3, 4] ∧
    tcp_client_receive_response 3 4
        [RecvResult.data "ABC".toList, RecvResult.data "DEFG".toList] =
      ([Event.call_receive_response 3 4,
        Event.sys_recv 3 0 4 (RecvResult.data "ABC".toList),
        Event.sys_recv 3 3 4 (RecvResult.data "DEFG".toList),
        Event.store 7 NUL], Outcome.returned EXIT_SUCCESS) ∧
    (bufferWrites (tcp_client_receive_response 3 4
        [RecvResult.data "ABC".toList, RecvResult.data "DEFG".toList]).1).map Prod.fst =
      [0, 1, 2, 3, 4, 5, 6, 7] := by
  decide

/-- C5, the run that breaks it: `connect` fails for the only address, so
`tcp_client_connect` returns `-1`; `main` then calls
`tcp_client_send_request` with the handle `-1`, which calls `send`, and it is
the failure of that `send` that ends the process. -/
theorem main_sends_after_failed_connect :
    tcp_client_connect envConnectFails.getaddrinfo_ret envConnectFails.servinfo =
      ([Event.sys_socket 0 3, Event.sys_connect 0 3 (-1), Event.sys_close 3],
        Outcome.returned (-1)) ∧
    main sampleHeader sampleArgs envConnectFails =
      ([Event.sys_socket 0 3, Event.sys_connect 0 3 (-1), Event.sys_close 3,
        Event.call_send_request (-1),
        Event.sys_send (-1) "random 1 a".toList 10 SendResult.error],
        Outcome.exited EXIT_FAILURE) ∧
    Event.call_send_request (-1) ∈ (main sampleHeader sampleArgs envConnectFails).1 := by
  decide

/-- C6 fails on the error paths: with the connection open on handle 3, a failed
`send` ends the process with `EXIT_FAILURE` and the trace has no `close(3)`;
the same holds for a failed `recv`. -/
theorem session_exits_without_close :
    (tcp_client_connect envSendFails.getaddrinfo_ret envSendFails.servinfo).2 =
      Outcome.returned 3 ∧
    main sampleHeader sampleArgs envSendFails =
      ([Event.sys_socket 0 3, Event.sys_connect 0 3 0, Event.call_send_request 3,
        Event.sys_send 3 "random 1 a".toList 10 SendResult.error],
        Outcome.exited EXIT_FAILURE) ∧
    Event.sys_close 3 ∉ (main sampleHeader sampleArgs envSendFails).1 ∧
    (tcp_client_connect envRecvFails.getaddrinfo_ret envRecvFails.servinfo).2 =
      Outcome.returned 3 ∧
    main sampleHeader sampleArgs envRecvFails =
      ([Event.sys_socket 0 3, Event.sys_connect 0 3 0, Event.call_send_request 3,
        Event.sys_send 3 "random 1 a".toList 10 (SendResult.accepted 10),
        Event.call_receive_response 3 1024,
        Event.sys_recv 3 0 1024 RecvResult.error],
        Outcome.exited EXIT_FAILURE) ∧
    Event.sys_close 3 ∉ (main sampleHeader sampleArgs envRecvFails).1 := by
  decide

/-- C6 as amended: take a run in which `tcp_client_connect` returned the handle
`sockfd`, with a buffer size that is a value of type `int`. When
`tcp_client_send_request` and `tcp_client_receive_response` both return and
every byte the receive loop stored lies inside the buffer, `main` returns
`EXIT_SUCCESS` and `close(sockfd)` is its last action, the only one after the
connect. When a `send` fails, `main` ends with `exit(EXIT_FAILURE)` and no
`close(sockfd)` follows the connect; the same holds when a `recv` fails after
stores that lie inside the buffer. -/
theorem session_closes_on_success (hdr : Header) (inp : ParseInput) (env : Env)
    (config : Config) (t0 : List Event) (sockfd : Int)
    (hparse : tcp_client_parse_arguments hdr inp = Outcome.returned config)
    (hconn : tcp_client_connect env.getaddrinfo_ret env.servinfo =
      (t0, Outcome.returned sockfd))
    (_hint : (hdr.TCP_CLIENT_MAX_INPUT_SIZE : Int) ≤ INT_MAX) :
    (∀ v1 v2, (tcp_client_send_request sockfd config env.sends).2 = Outcome.returned v1 →
      (tcp_client_receive_response sockfd hdr.TCP_CLIENT_MAX_INPUT_SIZE env.recvs).2 =
        Outcome.returned v2 →
      (∀ w ∈ bufferWrites
          (tcp_client_receive_response sockfd hdr.TCP_CLIENT_MAX_INPUT_SIZE env.recvs).1,
        w.1 < hdr.TCP_CLIENT_MAX_INPUT_SIZE) →
      (main hdr inp env).2 = Outcome.returned EXIT_SUCCESS ∧
      ∃ t, (main hdr inp env).1 = t0 ++ t ++ [Event.sys_close sockfd] ∧
        Event.sys_close sockfd ∉ t) ∧
    (∀ status, (tcp_client_send_request sockfd config env.sends).2 = Outcome.exited status →
      (main hdr inp env).2 = Outcome.exited EXIT_FAILURE ∧
      ∃ t, (main hdr inp env).1 = t0 ++ t ∧ Event.sys_close sockfd ∉ t) ∧
    (∀ v1 status, (tcp_client_send_request sockfd config env.sends).2 = Outcome.returned v1 →
      (tcp_client_receive_response sockfd hdr.TCP_CLIENT_MAX_INPUT_SIZE env.recvs).2 =
        Outcome.exited status →
      (∀ w ∈ bufferWrites
          (tcp_client_receive_response sockfd hdr.TCP_CLIENT_MAX_INPUT_SIZE env.recvs).1,
        w.1 < hdr.TCP_CLIENT_MAX_INPUT_SIZE) →
      (main hdr inp env).2 = Outcome.exited EXIT_FAILURE ∧
      ∃ t, (main hdr inp env).1 = t0 ++ t ∧ Event.sys_close sockfd ∉ t) := by
  have hmain : main hdr inp env =
      (t0 ++ (mainAfterConnect hdr config env sockfd).1,
        (mainAfterConnect hdr config env sockfd).2) := by
    unfold main
    rw [hparse]
    simp only [hconn]
  have hs := send_request_no_close sockfd sockfd config env.sends
  have hr := receive_response_no_close sockfd sockfd hdr.TCP_CLIENT_MAX_INPUT_SIZE env.recvs
  have hss := send_request_status sockfd config env.sends
  have hrs := receive_response_status sockfd hdr.TCP_CLIENT_MAX_INPUT_SIZE env.recvs
  rw [hmain]
  refine ⟨?_, ?_, ?_⟩
  · intro v1 v2 h1 h2 _
    unfold mainAfterConnect
    rcases e1 : tcp_client_send_request sockfd config env.sends with ⟨t1, o1⟩
    rcases e2 : tcp_client_receive_response sockfd hdr.TCP_CLIENT_MAX_INPUT_SIZE env.recvs with
      ⟨t2, o2⟩
    rw [e1] at h1 hs
    rw [e2] at h2 hr
    simp only at h1 h2 hs hr
    subst h1
    subst h2
    refine ⟨by simp [tcp_client_close],
      t1 ++ t2 ++ [Event.print (cstringAt (memAfter env.memory (bufferWrites t2))
        (2 * hdr.TCP_CLIENT_MAX_INPUT_SIZE) 0)], by simp [tcp_client_close], ?_⟩
    simp [hs, hr]
  · intro status h1
    unfold mainAfterConnect
    rcases e1 : tcp_client_send_request sockfd config env.sends with ⟨t1, o1⟩
    rw [e1] at h1 hs
    simp only at h1 hs
    subst h1
    have := hss.2 status (by rw [e1])
    exact ⟨by simp [this], t1, rfl, hs⟩
  · intro v1 status h1 h2 _
    unfold mainAfterConnect
    rcases e1 : tcp_client_send_request sockfd config env.sends with ⟨t1, o1⟩
    rcases e2 : tcp_client_receive_response sockfd hdr.TCP_CLIENT_MAX_INPUT_SIZE env.recvs with
      ⟨t2, o2⟩
    rw [e1] at h1 hs
    rw [e2] at h2 hr
    simp only at h1 h2 hs hr
    subst h1
    subst h2
    have := hrs.2 status (by rw [e2])
    exact ⟨by simp [this], t1 ++ t2, rfl, by simp [hs, hr]⟩

/-- C6 as amended, on two runs with the connection open on handle 3 and the
buffer of 1024 bytes: in the run in which the peer answers `A` and closes, the
stores are at offsets 0 and 1, `main` returns `EXIT_SUCCESS` and `close(3)` is
its last event; the run in which `send` fails exits with `EXIT_FAILURE` and has
no `close(3)` after the connect. -/
theorem session_closes_on_success_witness :
    ((sampleHeader.TCP_CLIENT_MAX_INPUT_SIZE : Int) ≤ INT_MAX ∧
      ∀ w ∈ bufferWrites (tcp_client_receive_response 3
          sampleHeader.TCP_CLIENT_MAX_INPUT_SIZE envSuccess.recvs).1,
        w.1 < sampleHeader.TCP_CLIENT_MAX_INPUT_SIZE) ∧
    ((main sampleHeader sampleArgs envSuccess).2 = Outcome.returned EXIT_SUCCESS ∧
      ∃ t, (main sampleHeader sampleArgs envSuccess).1 =
          [Event.sys_socket 0 3, Event.sys_connect 0 3 0] ++ t ++ [Event.sys_close 3] ∧
        Event.sys_close 3 ∉ t) ∧
    ((main sampleHeader sampleArgs envSendFails).2 = Outcome.exited EXIT_FAILURE ∧
      ∃ t, (main sampleHeader sampleArgs envSendFails).1 =
          [Event.sys_socket 0 3, Event.sys_connect 0 3 0] ++ t ∧
        Event.sys_close 3 ∉ t) :=
  ⟨⟨by decide, by decide⟩,
    (session_closes_on_success sampleHeader sampleArgs envSuccess sampleConfig
      [Event.sys_socket 0 3, Event.sys_connect 0 3 0] 3 (by decide) (by decide)
      (by decide)).1 EXIT_SUCCESS EXIT_SUCCESS (by decide) (by decide) (by decide),
    (session_closes_on_success sampleHeader sampleArgs envSendFails sampleConfig
      [Event.sys_socket 0 3, Event.sys_connect 0 3 0] 3 (by decide) (by decide)
      (by decide)).2.1 EXIT_FAILURE (by decide)⟩

end TcpClient
